import Mathlib

/-!
Shallow embedding of the Russian-roulette duel engine
(src/game.py, with the locale variant src/game_en.py where it differs).

Conventions of the embedding:
* Python's `random` calls are modelled by extra parameters: `random.randint(a, b)`
  becomes `randint a b rnd` where `rnd : Nat` selects the value (every value of
  [a, b] is reached by some `rnd`), and returns `none` exactly when Python would
  raise `ValueError` (empty range `a > b`); `random.shuffle(list(range(n)))` is
  modelled by passing the shuffled list (any permutation of `List.range n`);
  `random.choice(l)` on a nonempty list is modelled by an index `rnd % l.length`.
* Log lines are f-string templates; each template is one constructor of
  `LogEntry` (resp. `Msg` for the returned messages), carrying the interpolated
  values as fields.  The `+1` presentation offset of positions in the strings is
  dropped: entries store the 0-based values the code computes.
* Mutation of `self` becomes explicit state passing; a Python method that can
  raise returns `Option`.
-/

namespace RR

/-- Messages built by the item / gun operations of src/game.py (the
`spec_message` / `player_message` strings and return values); one constructor
per f-string template, fields are the interpolated values. -/
inductive Msg
  /-- "无效道具或未使用道具" (invalid item or no item used) -/
  | invalidItemOrNone
  /-- spectator message of add_bullet: "子弹被添加到位置 {pos+1}" -/
  | bulletAddedAt (pos : Nat)
  /-- player message of add_bullet: "一个额外的子弹被添加到枪中" -/
  | extraBulletAdded
  /-- "所有弹巢都已有子弹" (all chambers already have bullets) -/
  | allChambersFull
  /-- "无效位置，应为1-{chamber_count}" -/
  | invalidPosition (chamber_count : Nat)
  /-- spectator message "{player.name} 查看位置 {position+1}" -/
  | checkedPosition (playerName : String) (pos : Nat)
  /-- player message "位置 {position+1} 是{有/空}弹" -/
  | positionHasBullet (pos : Nat) (hasBullet : Bool)
  /-- "查看道具需要一个有效的位置参数" (Inspect needs a valid position parameter) -/
  | checkNeedsParam
  /-- "扳机移动到位置 {current_position+1}" -/
  | triggerMovedTo (pos : Nat)
  /-- "契约已激活，持续3回合" -/
  | contractActivated
  /-- "反转效果已激活，将影响下一回合" -/
  | reverseActivated
  /-- the initial value "" of spec_message / player_message, kept when an item
  name held in the inventory matches none of the five known items -/
  | blank
  deriving DecidableEq

/-- Entries of the two logs of src/game.py (`self.logs` for spectators,
`self.player_logs` for participants); one constructor per f-string template. -/
inductive LogEntry
  /-- spectator line of initialize_gun (includes the bullet positions) -/
  | initFull (bulletCount : Nat) (positions : List Nat) (initPos : Nat)
  /-- participant line of initialize_gun (no bullet positions) -/
  | initPlayer (bulletCount : Nat) (initPos : Nat)
  /-- spectator line of check_chamber: "{player_name} 查看位置 {position+1}: …" -/
  | checkChamber (playerName : String) (position : Nat) (hasBullet : Bool)
  /-- both logs, from fire: "在位置 {pos+1} 开火，结果: {命中/空弹}" -/
  | fired (position : Nat) (hit : Bool)
  /-- both logs, from fire: "契约效果已结束" -/
  | contractEnded
  /-- spectator line of handle_item_usage: "{player.name} 使用了 {item}：{spec_message}" -/
  | itemUsedFull (playerName : String) (item : String) (detail : Msg)
  /-- participant line of handle_item_usage: "{player.name} 使用了 {item}" -/
  | itemUsedPlayer (playerName : String) (item : String)
  /-- both logs: "{player.name} 提出协商: {message}" -/
  | proposal (playerName : String) (message : String)
  /-- both logs: "{opponent.name} 回应: {response}" -/
  | response (playerName : String) (text : String)
  /-- both logs: "{player.name} 说: {message}" -/
  | says (playerName : String) (message : String)
  /-- both logs: "{player.name} 选择保持沉默" -/
  | silent (playerName : String)
  deriving DecidableEq

/-- State held by class GameState of src/game.py (its `__init__` fields).
`contract_turns_left` is a Python int, hence `Int`. -/
structure GameState where
  chamber_count : Nat
  bullets : List Nat
  current_position : Nat
  logs : List LogEntry
  player_logs : List LogEntry
  contract_active : Bool
  contract_turns_left : Int
  reverse_active : Bool
  last_active_player : Option String
  deriving DecidableEq

/-- GameState.__init__(chamber_count). -/
def GameState.new (chamber_count : Nat) : GameState :=
  { chamber_count := chamber_count
    bullets := []
    current_position := 0
    logs := []
    player_logs := []
    contract_active := false
    contract_turns_left := 0
    reverse_active := false
    last_active_player := none }

/-- random.randint(a, b): uniform over the integers a, a+1, …, b; raises
ValueError (here: `none`) when the range is empty.  `rnd` selects the value:
as `rnd` ranges over `Nat`, the result ranges over exactly [a, b]. -/
def randint (a b : Int) (rnd : Nat) : Option Int :=
  if a ≤ b then some (a + (rnd : Int) % (b - a + 1)) else none

/-- GameState.initialize_gun of src/game.py: `bullet_count =
random.randint(1, chamber_count // 2)`; bullets are the first `bullet_count`
entries of the shuffled position list, sorted; `current_position =
random.randint(0, chamber_count - 1)`.  `shuffled` stands for the result of
`random.shuffle(list(range(chamber_count)))`. -/
def GameState.initialize_gun (gs : GameState) (rndCount rndPos : Nat)
    (shuffled : List Nat) : Option GameState :=
  match randint 1 ((gs.chamber_count : Int) / 2) rndCount with
  | none => none
  | some bc =>
    let bullet_count := bc.toNat
    let bullets := List.insertionSort (· ≤ ·) (shuffled.take bullet_count)
    match randint 0 ((gs.chamber_count : Int) - 1) rndPos with
    | none => none
    | some pos =>
      some { gs with
        bullets := bullets
        current_position := pos.toNat
        logs := gs.logs ++ [.initFull bullet_count bullets pos.toNat]
        player_logs := gs.player_logs ++ [.initPlayer bullet_count pos.toNat] }

/-- GameState.initialize_gun of src/game_en.py: identical to the Chinese
variant except that the bullet count is drawn by
`random.randint(1, self.chamber_count // 3)` (the function's own comment and
the rules text of game_en.py still say 1 to floor(x/2)). -/
def GameState.initialize_gun_en (gs : GameState) (rndCount rndPos : Nat)
    (shuffled : List Nat) : Option GameState :=
  match randint 1 ((gs.chamber_count : Int) / 3) rndCount with
  | none => none
  | some bc =>
    let bullet_count := bc.toNat
    let bullets := List.insertionSort (· ≤ ·) (shuffled.take bullet_count)
    match randint 0 ((gs.chamber_count : Int) - 1) rndPos with
    | none => none
    | some pos =>
      some { gs with
        bullets := bullets
        current_position := pos.toNat
        logs := gs.logs ++ [.initFull bullet_count bullets pos.toNat]
        player_logs := gs.player_logs ++ [.initPlayer bullet_count pos.toNat] }

/-- GameState.add_bullet: pick a uniformly random empty chamber if one exists
(`rnd` selects it), append it to `bullets` and re-sort; otherwise report that
all chambers are full.  Returns (new state, spec_msg, player_msg). -/
def GameState.add_bullet (gs : GameState) (rnd : Nat) : GameState × Msg × Msg :=
  let empty_chambers := (List.range gs.chamber_count).filter
    (fun i => decide (i ∉ gs.bullets))
  if empty_chambers.isEmpty then
    (gs, .allChambersFull, .allChambersFull)
  else
    let new_bullet := empty_chambers.getD (rnd % empty_chambers.length) 0
    let bullets := List.insertionSort (· ≤ ·) (gs.bullets ++ [new_bullet])
    ({ gs with bullets := bullets }, .bulletAddedAt new_bullet, .extraBulletAdded)

/-- GameState.check_chamber: raises ValueError (`none`) when the position is
out of range; otherwise returns membership in `bullets` and appends one entry
to the spectator log only (the comment in the source: not added to player_logs
to avoid leaking information). The position is an `Int` because the caller
passes `int(param) - 1`. -/
def GameState.check_chamber (gs : GameState) (position : Int)
    (player_name : String) : Option (Bool × GameState) :=
  if position < 0 ∨ position ≥ (gs.chamber_count : Int) then none
  else
    let pos := position.toNat
    let has_bullet := decide (pos ∈ gs.bullets)
    some (has_bullet,
      { gs with logs := gs.logs ++ [.checkChamber player_name pos has_bullet] })

/-- GameState.move_position: advance the trigger by one chamber (mod
chamber_count), no firing. -/
def GameState.move_position (gs : GameState) : GameState × Msg :=
  let gs := { gs with current_position := (gs.current_position + 1) % gs.chamber_count }
  (gs, .triggerMovedTo gs.current_position)

/-- GameState.activate_contract: contract on for 3 turns. -/
def GameState.activate_contract (gs : GameState) : GameState × Msg :=
  ({ gs with contract_active := true, contract_turns_left := 3 }, .contractActivated)

/-- GameState.activate_reverse. -/
def GameState.activate_reverse (gs : GameState) : GameState × Msg :=
  ({ gs with reverse_active := true }, .reverseActivated)

/-- GameState.fire of src/game.py: hit iff the current position holds a
bullet; log the outcome to both logs; advance the position by 1 mod
chamber_count; then, if the contract is active, decrement its counter and
deactivate it (logging to both logs) once the counter is ≤ 0. -/
def GameState.fire (gs : GameState) : Bool × GameState :=
  let was_bullet := decide (gs.current_position ∈ gs.bullets)
  let gs := { gs with
    logs := gs.logs ++ [LogEntry.fired gs.current_position was_bullet]
    player_logs := gs.player_logs ++ [LogEntry.fired gs.current_position was_bullet] }
  let gs := { gs with current_position := (gs.current_position + 1) % gs.chamber_count }
  let gs :=
    if gs.contract_active = true then
      let t := gs.contract_turns_left - 1
      if t ≤ 0 then
        { gs with contract_turns_left := t, contract_active := false
                  logs := gs.logs ++ [LogEntry.contractEnded]
                  player_logs := gs.player_logs ++ [LogEntry.contractEnded] }
      else { gs with contract_turns_left := t }
    else gs
  (was_bullet, gs)

/-- GameState.add_player_communication: append the same entry to both logs. -/
def GameState.add_player_communication (gs : GameState) (e : LogEntry) : GameState :=
  { gs with logs := gs.logs ++ [e], player_logs := gs.player_logs ++ [e] }

/-- The parts of class Player of src/game.py the engine reads and writes
(name, items, alive); the persona strings and the LLM client are opaque to the
core and omitted.  Items are the raw Chinese item-name strings of game.py
("子弹", "查看", "反转", "契约", "推动"). -/
structure Player where
  name : String
  items : List String
  alive : Bool
  deriving DecidableEq

/-- Player.remove_item: remove the first occurrence if present, report
success. -/
def Player.remove_item (p : Player) (item : String) : Player × Bool :=
  if item ∈ p.items then ({ p with items := p.items.erase item }, true)
  else (p, false)

/-- The item parameter as seen by handle_item_usage after parsing: Python's
`param` is either `None` (then `int(param)` raises TypeError), a string that
`int()` rejects (ValueError), or a string denoting the integer `n`. -/
inductive IParam
  | absent
  | malformed
  | num (n : Int)
  deriving DecidableEq

/-- GameController.handle_item_usage of src/game.py, acting on the game state
and the acting player.  `rnd` feeds `random.choice` inside add_bullet.
Mirrors the source branch for branch: membership check first; the Inspect
branch does its own range check before calling check_chamber (so the
`check_chamber = none` case below is unreachable); on success the item is
removed; finally one full entry is appended to the spectator log and one
"{player.name} 使用了 {item}" entry to the participant log. -/
def handle_item_usage (gs : GameState) (p : Player) (item : Option String)
    (param : IParam) (rnd : Nat) : GameState × Player × Msg :=
  match item with
  | none => (gs, p, .invalidItemOrNone)
  | some it =>
    if it ∉ p.items then (gs, p, .invalidItemOrNone)
    else
      let step : GameState × Player × Msg × Msg :=
        if it = "子弹" then
          let p := (p.remove_item "子弹").1
          let (gs, s, pm) := gs.add_bullet rnd
          (gs, p, s, pm)
        else if it = "查看" then
          match param with
          | .num n =>
            let position : Int := n - 1
            if position < 0 ∨ position ≥ (gs.chamber_count : Int) then
              (gs, p, .invalidPosition gs.chamber_count, .invalidPosition gs.chamber_count)
            else
              match gs.check_chamber position p.name with
              | some (has_bullet, gs) =>
                let p := (p.remove_item "查看").1
                (gs, p, .checkedPosition p.name position.toNat,
                 .positionHasBullet position.toNat has_bullet)
              | none => (gs, p, .checkNeedsParam, .checkNeedsParam)
          | _ => (gs, p, .checkNeedsParam, .checkNeedsParam)
        else if it = "反转" then
          let p := (p.remove_item "反转").1
          let (gs, m) := gs.activate_reverse
          ({ gs with last_active_player := some p.name }, p, m, m)
        else if it = "契约" then
          let p := (p.remove_item "契约").1
          let (gs, m) := gs.activate_contract
          (gs, p, m, m)
        else if it = "推动" then
          let p := (p.remove_item "推动").1
          let (gs, m) := gs.move_position
          (gs, p, m, m)
        else (gs, p, .blank, .blank)
      let gs := step.1
      let p := step.2.1
      let spec_message := step.2.2.1
      let player_message := step.2.2.2
      (({ gs with
          logs := gs.logs ++ [LogEntry.itemUsedFull p.name it spec_message]
          player_logs := gs.player_logs ++ [LogEntry.itemUsedPlayer p.name it] }),
       p, player_message)

/-- The fire target ("自己" / "对面"). -/
inductive Target
  | self
  | opp
  deriving DecidableEq

/-- The flip `target = "自己" if target == "对面" else "对面"` done by the
reverse rule. -/
def Target.flip : Target → Target
  | .self => .opp
  | .opp => .self

/-- The reverse rule of process_player_turn (src/game.py lines 549-558): if
the reverse effect is active and was not activated by the current actor, flip
the target and clear the flag (the source sets `reset_reverse = True` and the
immediately following block turns `reverse_active` off and `reset_reverse`
back off, so the net effect of the two blocks is exactly this); otherwise
leave target and state untouched.  The source compares Player objects; the two
players of a duel have distinct names, so the comparison is by name here. -/
def apply_reverse (gs : GameState) (actorName : String) (target : Target) :
    Target × GameState :=
  if gs.reverse_active = true ∧ gs.last_active_player ≠ some actorName then
    (target.flip, { gs with reverse_active := false })
  else (target, gs)

/-- The parsed communication choice of a turn ("协商" / "谈话" / silence —
the source treats any other value as silence). -/
inductive Comm
  | negotiate (message : String)
  | talk (message : String)
  | silence
  deriving DecidableEq

/-- Classification of the opponent's negotiation response:
`"同意" in opponent_response.lower()`, i.e. substring containment of the
accept keyword in the lower-cased response. -/
def containsAccept (resp : String) : Bool :=
  decide (List.IsInfix "同意".toList (resp.toList.map Char.toLower))

/-- How process_player_turn returned.  The source returns a bool
(False = stop the loop); the two False cases are distinguished by the headers
the source prints at the same moment: "协商成功，游戏结束为平局!"
(negotiation succeeded, draw) versus the hit headers. -/
inductive TurnOutcome
  /-- the accepted negotiation: return False before the fire step -/
  | negotiatedDraw
  /-- the fire hit and a player was marked dead: return False -/
  | fatalHit
  /-- return True: the game continues -/
  | continues
  deriving DecidableEq

/-- One turn's parsed agent decision plus the randomness / opponent response
it may consume. -/
structure TurnInput where
  item : Option String
  itemParam : IParam
  comm : Comm
  /-- the opponent's free-text reply if a negotiation is proposed -/
  negResponse : String
  target : Target
  /-- randomness for add_bullet if the ExtraBullet item is used -/
  rndAdd : Nat
  deriving DecidableEq

/-- GameController.process_player_turn of src/game.py, from the point where
the agent's reply has been parsed (`parsed`): (1) item usage via
handle_item_usage when an item was named; (2) communication — a negotiation
appends the proposal and the opponent's response to both logs and, when the
response contains the accept keyword, ends the game as a draw before any fire;
talk / silence append one entry; (3) the reverse rule is applied to the
declared target; (4) the gun fires; on a hit the targeted player is marked
dead and the turn reports game over. -/
def process_player_turn (gs : GameState) (player opponent : Player)
    (inp : TurnInput) : GameState × Player × Player × TurnOutcome :=
  let r1 :=
    match inp.item with
    | some it => handle_item_usage gs player (some it) inp.itemParam inp.rndAdd
    | none => (gs, player, Msg.invalidItemOrNone)
  let gs := r1.1
  let player := r1.2.1
  let comm : GameState × Bool :=
    match inp.comm with
    | .negotiate message =>
      let gs := gs.add_player_communication (.proposal player.name message)
      let gs := gs.add_player_communication (.response opponent.name inp.negResponse)
      (gs, containsAccept inp.negResponse)
    | .talk message => (gs.add_player_communication (.says player.name message), false)
    | .silence => (gs.add_player_communication (.silent player.name), false)
  let gs := comm.1
  if comm.2 = true then (gs, player, opponent, .negotiatedDraw)
  else
    let rt := apply_reverse gs player.name inp.target
    let target := rt.1
    let gs := rt.2
    let fr := gs.fire
    let was_hit := fr.1
    let gs := fr.2
    if was_hit = true then
      match target with
      | .self => (gs, { player with alive := false }, opponent, .fatalHit)
      | .opp => (gs, player, { opponent with alive := false }, .fatalHit)
    else (gs, player, opponent, .continues)

/-- GameController.check_contract_effect for the two players of the duel: if
the contract is active and some player is dead, every player dies. -/
def check_contract_effect (gs : GameState) (p1 p2 : Player) : Player × Player :=
  if gs.contract_active = true then
    if ¬ p1.alive = true ∨ ¬ p2.alive = true then
      ({ p1 with alive := false }, { p2 with alive := false })
    else (p1, p2)
  else (p1, p2)

/-- Why the while loop of run_game stopped. The source keeps a bool
`game_active`; the three stop cases are distinguished by the headers printed
when each occurs. -/
inductive EndKind
  /-- process_player_turn announced a successful negotiation -/
  | negotiated
  /-- process_player_turn announced a fatal hit -/
  | hit
  /-- the `turn_count < max_turns` guard failed -/
  | maxTurns
  deriving DecidableEq

/-- Result of the run_game loop: why it stopped, the final `turn_count`, and
the final state. -/
structure LoopResult where
  endKind : EndKind
  turn_count : Nat
  gs : GameState
  p1 : Player
  p2 : Player
  deriving DecidableEq

/-- The while loop of GameController.run_game.  `fuel` is the number of loop
iterations still allowed, i.e. `max_turns - turn_count`, so the guard
`turn_count < max_turns` is exactly `fuel ≠ 0`.  `p1turn` is the two-player
rotation `current_player_idx` (true = players[0] acts); the roster of a duel
has exactly two players, so `(idx + 1) % len(players)` is the flip of this
bool.  When a turn reports game over the source re-checks the contract
(`if contract_active: check_contract_effect()`) and breaks without
incrementing `turn_count`; otherwise the rotation advances and `turn_count`
increments. -/
def run_game_loop (inputs : Nat → TurnInput) :
    Nat → Nat → Bool → GameState → Player → Player → LoopResult
  | 0, turn_count, _, gs, p1, p2 =>
    { endKind := .maxTurns, turn_count := turn_count, gs := gs, p1 := p1, p2 := p2 }
  | fuel + 1, turn_count, p1turn, gs, p1, p2 =>
    if p1turn then
      let r := process_player_turn gs p1 p2 (inputs turn_count)
      match r.2.2.2 with
      | .negotiatedDraw =>
        let pair := if r.1.contract_active = true then
          check_contract_effect r.1 r.2.1 r.2.2.1 else (r.2.1, r.2.2.1)
        { endKind := .negotiated, turn_count := turn_count, gs := r.1,
          p1 := pair.1, p2 := pair.2 }
      | .fatalHit =>
        let pair := if r.1.contract_active = true then
          check_contract_effect r.1 r.2.1 r.2.2.1 else (r.2.1, r.2.2.1)
        { endKind := .hit, turn_count := turn_count, gs := r.1,
          p1 := pair.1, p2 := pair.2 }
      | .continues =>
        run_game_loop inputs fuel (turn_count + 1) false r.1 r.2.1 r.2.2.1
    else
      let r := process_player_turn gs p2 p1 (inputs turn_count)
      match r.2.2.2 with
      | .negotiatedDraw =>
        let pair := if r.1.contract_active = true then
          check_contract_effect r.1 r.2.2.1 r.2.1 else (r.2.2.1, r.2.1)
        { endKind := .negotiated, turn_count := turn_count, gs := r.1,
          p1 := pair.1, p2 := pair.2 }
      | .fatalHit =>
        let pair := if r.1.contract_active = true then
          check_contract_effect r.1 r.2.2.1 r.2.1 else (r.2.2.1, r.2.1)
        { endKind := .hit, turn_count := turn_count, gs := r.1,
          p1 := pair.1, p2 := pair.2 }
      | .continues =>
        run_game_loop inputs fuel (turn_count + 1) true r.1 r.2.2.1 r.2.1

/-- The final classification block of run_game: it looks only at the alive
flags — no alive player: "平局! 所有玩家都死亡了"; every player alive:
"游戏达到最大回合数，以平局结束"; otherwise the alive player wins. -/
inductive MatchResult
  | drawAllDead
  | drawMaxTurns
  | win (name : String)
  deriving DecidableEq

/-- The classification printed at the end of run_game, from the alive
flags of the two players. -/
def classify (p1 p2 : Player) : MatchResult :=
  if p1.alive = false ∧ p2.alive = false then .drawAllDead
  else if p1.alive = true ∧ p2.alive = true then .drawMaxTurns
  else .win (if p1.alive = true then p1.name else p2.name)

/-- GameController.run_game: the loop with `max_turns = 30` starting at
`turn_count = 0`, followed by the classification block. -/
def run_game (inputs : Nat → TurnInput) (first_p1 : Bool) (gs : GameState)
    (p1 p2 : Player) : LoopResult × MatchResult :=
  let r := run_game_loop inputs 30 0 first_p1 gs p1 p2
  (r, classify r.p1 r.p2)

/-! Concrete fixtures used by the concrete-scenario theorems and witnesses. -/

/-- The gun of the spec's concrete scenario: 6 chambers, bullets at 0 and 2,
trigger at 0. -/
def gun6 : GameState :=
  { chamber_count := 6
    bullets := [0, 2]
    current_position := 0
    logs := []
    player_logs := []
    contract_active := false
    contract_turns_left := 0
    reverse_active := false
    last_active_player := none }

/-- A player named Bill with an empty inventory. -/
def billP : Player := { name := "Bill", items := [], alive := true }

/-- A player named Lee with an empty inventory. -/
def leeP : Player := { name := "Lee", items := [], alive := true }

/-- Bill holding the ExtraBullet and Inspect items. -/
def billItems : Player := { name := "Bill", items := ["子弹", "查看"], alive := true }

/-- A decision using no item, staying silent, firing at the opponent. -/
def silentTurn : TurnInput :=
  { item := none
    itemParam := .absent
    comm := .silence
    negResponse := ""
    target := .opp
    rndAdd := 0 }

/-- Active contract with one fire resolution left, a bullet under the
trigger. -/
def contract1Gun : GameState :=
  { gun6 with bullets := [0], contract_active := true, contract_turns_left := 1 }

/-- Active contract with two fire resolutions left, a bullet under the
trigger. -/
def contract2Gun : GameState :=
  { gun6 with bullets := [0], contract_active := true, contract_turns_left := 2 }

/-- Active contract with one fire resolution left, no bullet under the
trigger (the next fire is a miss). -/
def contract1Miss : GameState :=
  { gun6 with bullets := [3], contract_active := true, contract_turns_left := 1 }

/-- Iterated application of the reverse rule over a sequence of turns (actor
name, declared target): the projection of process_player_turn's reverse
fragment over consecutive turns in which nobody re-activates the Reverse item
(no other step of a turn reads or writes `reverse_active` /
`last_active_player`). -/
def reverse_trace (gs : GameState) : List (String × Target) → List Target
  | [] => []
  | (a, t) :: rest =>
    (apply_reverse gs a t).1 :: reverse_trace (apply_reverse gs a t).2 rest

/-- Modelled from the claim's words: after player A activates Reverse, the
declared target is flipped on the very next turn taken by any actor other
than A, exactly once, and on no turn thereafter; A's own turns pass through
unflipped. -/
def reverse_spec_targets (A : String) : List (String × Target) → List Target
  | [] => []
  | (a, t) :: rest =>
    if a = A then t :: reverse_spec_targets A rest
    else t.flip :: rest.map Prod.snd

/-- A gun state right after Bill's Reverse activation. -/
def revGun : GameState :=
  { gun6 with reverse_active := true, last_active_player := some "Bill" }

/-- A negotiation decision whose opponent response is parameterised. -/
def negTurn (resp : String) : TurnInput :=
  { item := none
    itemParam := .absent
    comm := .negotiate "停战吧"
    negResponse := resp
    target := .opp
    rndAdd := 0 }

/-- A gun with no bullets at all: every fire misses. -/
def emptyGun : GameState := { gun6 with bullets := [] }

/-! Helper lemmas about the operations. -/

/-- Fires recorded in a log. -/
def isFired : LogEntry → Bool
  | .fired _ _ => true
  | _ => false

/-- Number of fire-outcome entries in a log. -/
def countFired (l : List LogEntry) : Nat := l.countP isFired

theorem countFired_append (l₁ l₂ : List LogEntry) :
    countFired (l₁ ++ l₂) = countFired l₁ + countFired l₂ :=
  List.countP_append _ _ _

theorem fire_fst (gs : GameState) :
    (gs.fire).1 = decide (gs.current_position ∈ gs.bullets) := rfl

theorem fire_position (gs : GameState) :
    (gs.fire).2.current_position = (gs.current_position + 1) % gs.chamber_count := by
  unfold GameState.fire
  dsimp only
  split_ifs <;> rfl

theorem fire_bullets (gs : GameState) : (gs.fire).2.bullets = gs.bullets := by
  unfold GameState.fire
  dsimp only
  split_ifs <;> rfl

theorem fire_chamber_count (gs : GameState) :
    (gs.fire).2.chamber_count = gs.chamber_count := by
  unfold GameState.fire
  dsimp only
  split_ifs <;> rfl

theorem fire_contract_turns (gs : GameState) :
    (gs.fire).2.contract_turns_left =
      if gs.contract_active = true then gs.contract_turns_left - 1
      else gs.contract_turns_left := by
  unfold GameState.fire
  dsimp only
  split_ifs <;> rfl

theorem fire_contract_active (gs : GameState) :
    (gs.fire).2.contract_active =
      if gs.contract_active = true ∧ gs.contract_turns_left - 1 ≤ 0 then false
      else gs.contract_active := by
  unfold GameState.fire
  dsimp only
  split_ifs with h1 h2 <;> simp_all

theorem countFired_fire (gs : GameState) :
    countFired (gs.fire).2.logs = countFired gs.logs + 1 := by
  unfold GameState.fire
  dsimp only
  split_ifs <;> simp [countFired, isFired, List.countP_append, List.countP_cons]

theorem remove_item_alive (p : Player) (x : String) :
    ((p.remove_item x).1).alive = p.alive := by
  unfold Player.remove_item
  split <;> rfl

theorem remove_item_name (p : Player) (x : String) :
    ((p.remove_item x).1).name = p.name := by
  unfold Player.remove_item
  split <;> rfl

theorem check_chamber_some (gs gs' : GameState) (pos : Int) (nm : String) (b : Bool)
    (h : gs.check_chamber pos nm = some (b, gs')) :
    b = decide (pos.toNat ∈ gs.bullets) ∧
    gs' = { gs with logs := gs.logs ++ [LogEntry.checkChamber nm pos.toNat b] } := by
  unfold GameState.check_chamber at h
  split at h
  · exact absurd h (by simp)
  · obtain ⟨h1, h2⟩ := Prod.mk.injEq .. ▸ Option.some.injEq .. ▸ h
    subst h1
    exact ⟨rfl, h2.symm⟩

theorem handle_item_alive (gs : GameState) (p : Player) (item : Option String)
    (param : IParam) (rnd : Nat) :
    ((handle_item_usage gs p item param rnd).2.1).alive = p.alive := by
  unfold handle_item_usage
  cases item with
  | none => rfl
  | some it =>
    dsimp only
    split
    · rfl
    · dsimp only
      split_ifs with h1 h2 h3 h4 h5
      · simp [remove_item_alive]
      · cases param
        · rfl
        · rfl
        · dsimp only
          split
          · rfl
          · split <;> simp [remove_item_alive]
      · simp [remove_item_alive]
      · simp [remove_item_alive]
      · simp [remove_item_alive]
      · rfl

theorem countFired_handle (gs : GameState) (p : Player) (item : Option String)
    (param : IParam) (rnd : Nat) :
    countFired (handle_item_usage gs p item param rnd).1.logs = countFired gs.logs := by
  unfold handle_item_usage
  cases item with
  | none => rfl
  | some it =>
    dsimp only
    split
    · rfl
    · dsimp only
      split_ifs with h1 h2 h3 h4 h5
      · simp only [GameState.add_bullet]
        split_ifs <;> simp [countFired, isFired, List.countP_append, List.countP_cons]
      · cases param
        · simp [countFired, isFired, List.countP_append, List.countP_cons]
        · simp [countFired, isFired, List.countP_append, List.countP_cons]
        · dsimp only
          split
          · simp [countFired, isFired, List.countP_append, List.countP_cons]
          · split
            · rename_i b gs' hcc
              obtain ⟨-, h2⟩ := check_chamber_some _ _ _ _ _ hcc
              subst h2
              simp [countFired, isFired, List.countP_append, List.countP_cons]
            · simp [countFired, isFired, List.countP_append, List.countP_cons]
      · simp [GameState.activate_reverse, countFired, isFired, List.countP_append,
          List.countP_cons]
      · simp [GameState.activate_contract, countFired, isFired, List.countP_append,
          List.countP_cons]
      · simp [GameState.move_position, countFired, isFired, List.countP_append,
          List.countP_cons]
      · simp [countFired, isFired, List.countP_append, List.countP_cons]

/-! Claim theorems. -/

/-- C5: for every gun state, fire() returns hit = true iff current_position is
in bullets, and unconditionally advances current_position by exactly 1 modulo
chamber_count, independent of hit or miss; and in the concrete scenario N=6,
bullets={0,2}, current_position=0, the first fire hits and leaves position 1,
the next fire misses and leaves position 2. -/
theorem fire_hit_iff_and_advances :
    (∀ gs : GameState,
      ((gs.fire).1 = true ↔ gs.current_position ∈ gs.bullets) ∧
      (gs.fire).2.current_position = (gs.current_position + 1) % gs.chamber_count) ∧
    ((gun6.fire).1 = true ∧ (gun6.fire).2.current_position = 1 ∧
      ((gun6.fire).2.fire).1 = false ∧ ((gun6.fire).2.fire).2.current_position = 2) := by
  constructor
  · intro gs
    refine ⟨?_, fire_position gs⟩
    rw [fire_fst]
    exact decide_eq_true_iff
  · exact ⟨by decide, by decide, by decide, by decide⟩

theorem randint_bounds (a b : Int) (rnd : Nat) (v : Int)
    (h : randint a b rnd = some v) : a ≤ v ∧ v ≤ b := by
  unfold randint at h
  split at h
  · rename_i hab
    obtain rfl := Option.some.inj h
    have h0 : 0 ≤ (rnd : Int) % (b - a + 1) := Int.emod_nonneg _ (by omega)
    have h1 : (rnd : Int) % (b - a + 1) < b - a + 1 := Int.emod_lt_of_pos _ (by omega)
    omega
  · exact absurd h (by simp)

/-- The properties C3 claims hold of initialize in both variants do hold of
src/game.py's variant: for chamber_count ≥ 2 and any random choices, the
initialization succeeds with 1 ≤ |bullets| ≤ ⌊N/2⌋, pairwise-distinct bullet
positions inside [0, N), and current_position inside [0, N). -/
theorem initialize_gun_bounds (gs gs' : GameState) (rndCount rndPos : Nat)
    (shuffled : List Nat) (hN : 2 ≤ gs.chamber_count)
    (hperm : shuffled.Perm (List.range gs.chamber_count))
    (h : gs.initialize_gun rndCount rndPos shuffled = some gs') :
    1 ≤ gs'.bullets.length ∧ gs'.bullets.length ≤ gs.chamber_count / 2 ∧
    gs'.bullets.Nodup ∧ (∀ b ∈ gs'.bullets, b < gs.chamber_count) ∧
    gs'.current_position < gs.chamber_count := by
  unfold GameState.initialize_gun at h
  cases hbc : randint 1 ((gs.chamber_count : Int) / 2) rndCount with
  | none =>
    rw [hbc] at h
    exact absurd h (by simp)
  | some bc =>
    rw [hbc] at h
    cases hpos : randint 0 ((gs.chamber_count : Int) - 1) rndPos with
    | none =>
      rw [hpos] at h
      exact absurd h (by simp)
    | some pos =>
      rw [hpos] at h
      dsimp only at h
      obtain rfl := (Option.some.inj h).symm
      obtain ⟨hbc1, hbc2⟩ := randint_bounds _ _ _ _ hbc
      obtain ⟨hpos1, hpos2⟩ := randint_bounds _ _ _ _ hpos
      have hdiv : ((gs.chamber_count : Int) / 2) = ((gs.chamber_count / 2 : Nat) : Int) :=
        (Int.ofNat_ediv gs.chamber_count 2).symm
      have hbcN : bc.toNat ≤ gs.chamber_count / 2 := by omega
      have hlen : shuffled.length = gs.chamber_count := by
        rw [hperm.length_eq, List.length_range]
      have hsortperm := List.perm_insertionSort (fun x1 x2 => x1 ≤ x2)
        (shuffled.take bc.toNat)
      have hsub : ∀ b ∈ List.insertionSort (fun x1 x2 => x1 ≤ x2)
          (shuffled.take bc.toNat), b < gs.chamber_count := by
        intro b hb
        have hb2 : b ∈ shuffled.take bc.toNat := hsortperm.mem_iff.mp hb
        have hb3 : b ∈ shuffled := (List.take_sublist _ _).subset hb2
        have hb4 : b ∈ List.range gs.chamber_count := hperm.mem_iff.mp hb3
        exact List.mem_range.mp hb4
      refine ⟨?_, ?_, ?_, hsub, ?_⟩
      · rw [hsortperm.length_eq, List.length_take, hlen]
        have : 1 ≤ bc.toNat := by omega
        omega
      · rw [hsortperm.length_eq, List.length_take]
        exact le_trans (min_le_left _ _) hbcN
      · refine hsortperm.nodup_iff.mpr ?_
        exact (List.take_sublist _ _).nodup (hperm.nodup_iff.mpr (List.nodup_range _))
      · have : pos.toNat < gs.chamber_count := by omega
        exact this

/-- C3 (code-bug evidence): the two locale variants do not initialize
identically.  src/game_en.py draws the bullet count with
`random.randint(1, chamber_count // 3)` although its own comment and its rules
text say 1 to floor(N/2): for chamber_count = 2 the range [1, 2//3] = [1, 0]
is empty, so the English variant's initialize raises ValueError for every
random choice, while the Chinese variant (game.py, `chamber_count // 2`)
succeeds.  So "initialize succeeds for every N ≥ 2 ... identically in both
locale variants" fails on the code. -/
theorem initialize_gun_en_diverges :
    (∀ (rndCount rndPos : Nat) (shuffled : List Nat),
      (GameState.new 2).initialize_gun_en rndCount rndPos shuffled = none) ∧
    (∀ (rndCount rndPos : Nat) (shuffled : List Nat),
      ((GameState.new 2).initialize_gun rndCount rndPos shuffled).isSome = true) := by
  constructor
  · intro rndCount rndPos shuffled
    unfold GameState.initialize_gun_en randint
    norm_num [GameState.new]
  · intro rndCount rndPos shuffled
    unfold GameState.initialize_gun randint
    norm_num [GameState.new]

/-- C1 (code-bug evidence): a hit while the contract is active at the moment
of firing with turns_remaining = 1 does NOT kill both players.  fire()
decrements the counter to 0 and clears contract_active before run_game checks
it, so check_contract_effect is skipped and only the targeted player dies
(Bill wins).  With turns_remaining = 2 at the same hit, both players die, as
the claim expects for every hit while active. -/
theorem contract_hit_last_turn_kills_only_target :
    contract1Gun.contract_active = true ∧
    contract1Gun.contract_turns_left = 1 ∧
    (contract1Gun.fire).1 = true ∧
    (run_game (fun _ => silentTurn) true contract1Gun billP leeP).1.endKind = .hit ∧
    (run_game (fun _ => silentTurn) true contract1Gun billP leeP).1.p1.alive = true ∧
    (run_game (fun _ => silentTurn) true contract1Gun billP leeP).1.p2.alive = false ∧
    (run_game (fun _ => silentTurn) true contract1Gun billP leeP).2 = MatchResult.win "Bill" ∧
    (run_game (fun _ => silentTurn) true contract2Gun billP leeP).1.p1.alive = false ∧
    (run_game (fun _ => silentTurn) true contract2Gun billP leeP).1.p2.alive = false ∧
    (run_game (fun _ => silentTurn) true contract2Gun billP leeP).2 = MatchResult.drawAllDead := by
  decide

/-- C2 (code-bug evidence): on a successful ExtraBullet or Inspect activation
the entry appended to the participant log is
`LogEntry.itemUsedPlayer player.name item` — the f-string
"{player.name} 使用了 {item}" of src/game.py line 403 — which carries the exact
item name; the entries for the two items differ, so the participant log
reveals which item was used, contradicting the claim (and the game's own rule
text, which says the opponent only learns that an item was used).  The two
activations shown are successful: ExtraBullet grows `bullets` and Inspect
consumes the item. -/
theorem participant_log_names_used_item :
    (handle_item_usage gun6 billItems (some "子弹") .absent 0).1.player_logs =
      [LogEntry.itemUsedPlayer "Bill" "子弹"] ∧
    (handle_item_usage gun6 billItems (some "查看") (.num 3) 0).1.player_logs =
      [LogEntry.itemUsedPlayer "Bill" "查看"] ∧
    LogEntry.itemUsedPlayer "Bill" "子弹" ≠ LogEntry.itemUsedPlayer "Bill" "查看" ∧
    (handle_item_usage gun6 billItems (some "子弹") .absent 0).1.bullets = [0, 1, 2] ∧
    (handle_item_usage gun6 billItems (some "查看") (.num 3) 0).2.1.items = ["子弹"] := by
  decide

/-- C10: for every in-range position, check_chamber returns whether the
position holds a bullet and changes nothing but the spectator log, to which it
appends exactly one entry: the record update on the right-hand side carries
`bullets`, `current_position`, `chamber_count`, `contract_active`,
`contract_turns_left`, `reverse_active` and `player_logs` over unchanged, and
the players' inventories cannot be touched because the method consumes and
produces only the gun state (the source method writes `self.logs` alone). -/
theorem check_chamber_frame (gs : GameState) (position : Int) (name : String)
    (h0 : 0 ≤ position) (h1 : position < (gs.chamber_count : Int)) :
    gs.check_chamber position name =
      some (decide (position.toNat ∈ gs.bullets),
        { gs with logs := gs.logs ++ [LogEntry.checkChamber name position.toNat
            (decide (position.toNat ∈ gs.bullets))] }) := by
  unfold GameState.check_chamber
  rw [if_neg]
  simp only [not_or, not_lt, not_le]
  exact ⟨h0, h1⟩

/-- Witness for C10 at position 2 of the 6-chamber gun with bullets {0, 2}. -/
theorem check_chamber_frame_witness :
    (0 : Int) ≤ 2 ∧ (2 : Int) < (gun6.chamber_count : Int) ∧
    gun6.check_chamber 2 "Bill" =
      some (decide (((2 : Int)).toNat ∈ gun6.bullets),
        { gun6 with logs := gun6.logs ++ [LogEntry.checkChamber "Bill" ((2 : Int)).toNat
            (decide (((2 : Int)).toNat ∈ gun6.bullets))] }) :=
  ⟨by decide, by decide, check_chamber_frame gun6 2 "Bill" (by decide) (by decide)⟩

/-- C7: activating the Contract item sets (active = true, turns_remaining = 3);
every fire while active decrements the counter by exactly 1; the contract
deactivates exactly when the counter reaches 0 (for states with a positive
counter, the fire deactivates iff the counter was 1); and in the concrete
scenario turns_remaining = 1 with the next fire a miss, the counter becomes 0,
the contract inactive, and the turn continues with both players alive. -/
theorem contract_lifecycle :
    (∀ (gs : GameState) (p : Player) (param : IParam) (rnd : Nat), "契约" ∈ p.items →
      (handle_item_usage gs p (some "契约") param rnd).1.contract_active = true ∧
      (handle_item_usage gs p (some "契约") param rnd).1.contract_turns_left = 3) ∧
    (∀ gs : GameState, gs.contract_active = true →
      (gs.fire).2.contract_turns_left = gs.contract_turns_left - 1) ∧
    (∀ gs : GameState, gs.contract_active = true → 1 ≤ gs.contract_turns_left →
      ((gs.fire).2.contract_active = false ↔ gs.contract_turns_left = 1)) ∧
    ((contract1Miss.fire).1 = false ∧
      (contract1Miss.fire).2.contract_turns_left = 0 ∧
      (contract1Miss.fire).2.contract_active = false ∧
      (process_player_turn contract1Miss billP leeP silentTurn).2.2.2 = .continues ∧
      (process_player_turn contract1Miss billP leeP silentTurn).2.1.alive = true ∧
      (process_player_turn contract1Miss billP leeP silentTurn).2.2.1.alive = true) := by
  refine ⟨?_, ?_, ?_, by decide⟩
  · intro gs p param rnd h
    unfold handle_item_usage
    dsimp only
    rw [if_neg (by simpa using h)]
    simp [GameState.activate_contract]
  · intro gs h
    rw [fire_contract_turns, if_pos h]
  · intro gs h h1
    rw [fire_contract_active]
    split_ifs with hc
    · simp only [true_iff]
      omega
    · rw [h]
      simp only [Bool.true_eq_false, false_iff]
      rw [not_and] at hc
      have := hc h
      omega

/-- Witness for C7's quantified parts at a concrete state: a player holding
the Contract item activates it, and a fire at an active contract with
counter 1 decrements to 0 and deactivates. -/
theorem contract_lifecycle_witness :
    ("契约" ∈ ({ name := "Bill", items := ["契约"], alive := true } : Player).items ∧
      (handle_item_usage gun6 { name := "Bill", items := ["契约"], alive := true }
        (some "契约") .absent 0).1.contract_active = true) ∧
    (contract1Miss.contract_active = true ∧
      (contract1Miss.fire).2.contract_turns_left = contract1Miss.contract_turns_left - 1) ∧
    (1 ≤ contract1Miss.contract_turns_left ∧
      ((contract1Miss.fire).2.contract_active = false ↔ contract1Miss.contract_turns_left = 1)) :=
  ⟨⟨by decide, (contract_lifecycle.1 gun6 _ .absent 0 (by decide)).1⟩,
   ⟨by decide, contract_lifecycle.2.1 contract1Miss rfl⟩,
   ⟨by decide, contract_lifecycle.2.2.1 contract1Miss rfl (by decide)⟩⟩

theorem reverse_trace_inactive (gs : GameState) (h : gs.reverse_active = false)
    (turns : List (String × Target)) : reverse_trace gs turns = turns.map Prod.snd := by
  induction turns with
  | nil => rfl
  | cons ht rest ih =>
    obtain ⟨a, t⟩ := ht
    have ha : apply_reverse gs a t = (t, gs) := by
      unfold apply_reverse
      rw [if_neg]
      simp [h]
    simp only [reverse_trace, ha, List.map_cons]
    exact congrArg _ ih

theorem reverse_trace_active (gs : GameState) (A : String)
    (h1 : gs.reverse_active = true) (h2 : gs.last_active_player = some A)
    (turns : List (String × Target)) :
    reverse_trace gs turns = reverse_spec_targets A turns := by
  induction turns generalizing gs with
  | nil => rfl
  | cons ht rest ih =>
    obtain ⟨a, t⟩ := ht
    by_cases hA : a = A
    · subst hA
      have ha : apply_reverse gs a t = (t, gs) := by
        unfold apply_reverse
        rw [if_neg]
        simp [h2]
      simp only [reverse_trace, reverse_spec_targets, ha, if_pos rfl]
      exact congrArg _ (ih gs h1 h2)
    · have ha : apply_reverse gs a t =
          (t.flip, { gs with reverse_active := false }) := by
        unfold apply_reverse
        rw [if_pos]
        refine ⟨h1, ?_⟩
        rw [h2]
        simp
        exact fun e => hA e.symm
      simp only [reverse_trace, reverse_spec_targets, ha, if_neg hA]
      exact congrArg _ (reverse_trace_inactive _ rfl rest)

/-- C6: activating Reverse records (active = true, activated_by = the acting
player); while active, a turn by the activator leaves the target and the flag
untouched; over any following sequence of turns the behaviour equals the
claim's description (`reverse_spec_targets`): the very next turn by an actor
other than the activator is flipped, exactly once, and every turn after that
passes through unflipped; and with the flag off, no turn is ever flipped. -/
theorem reverse_flips_next_other_turn_once :
    (∀ (gs : GameState) (p : Player) (param : IParam) (rnd : Nat), "反转" ∈ p.items →
      (handle_item_usage gs p (some "反转") param rnd).1.reverse_active = true ∧
      (handle_item_usage gs p (some "反转") param rnd).1.last_active_player = some p.name) ∧
    (∀ (gs : GameState) (A : String) (t : Target), gs.reverse_active = true →
      gs.last_active_player = some A → apply_reverse gs A t = (t, gs)) ∧
    (∀ (gs : GameState) (A : String) (turns : List (String × Target)),
      gs.reverse_active = true → gs.last_active_player = some A →
      reverse_trace gs turns = reverse_spec_targets A turns) ∧
    (∀ (gs : GameState) (turns : List (String × Target)), gs.reverse_active = false →
      reverse_trace gs turns = turns.map Prod.snd) := by
  refine ⟨?_, ?_, fun gs A turns h1 h2 => reverse_trace_active gs A h1 h2 turns,
    fun gs turns h => reverse_trace_inactive gs h turns⟩
  · intro gs p param rnd h
    unfold handle_item_usage
    dsimp only
    rw [if_neg (by simpa using h)]
    simp [GameState.activate_reverse, remove_item_name]
  · intro gs A t h1 h2
    unfold apply_reverse
    rw [if_neg]
    simp [h2]

/-- Witness for C6: from Bill's activation, Bill's own next turn is not
flipped and the flag survives; Lee's following turn is flipped; Lee's turn
after that is not. -/
theorem reverse_flips_witness :
    revGun.reverse_active = true ∧ revGun.last_active_player = some "Bill" ∧
    reverse_trace revGun
        [("Bill", Target.opp), ("Lee", Target.opp), ("Lee", Target.self)] =
      reverse_spec_targets "Bill"
        [("Bill", Target.opp), ("Lee", Target.opp), ("Lee", Target.self)] ∧
    reverse_spec_targets "Bill"
        [("Bill", Target.opp), ("Lee", Target.opp), ("Lee", Target.self)] =
      [Target.opp, Target.self, Target.self] :=
  ⟨rfl, rfl,
   reverse_flips_next_other_turn_once.2.2.1 revGun "Bill"
     [("Bill", Target.opp), ("Lee", Target.opp), ("Lee", Target.self)] rfl rfl,
   by decide⟩

theorem add_comm_logs (gs : GameState) (e : LogEntry) :
    (gs.add_player_communication e).logs = gs.logs ++ [e] := rfl

theorem countFired_append_single (l : List LogEntry) (e : LogEntry) :
    countFired (l ++ [e]) = countFired l + if isFired e = true then 1 else 0 := by
  simp [countFired, List.countP_append, List.countP_cons]

theorem apply_reverse_logs (gs : GameState) (a : String) (t : Target) :
    ((apply_reverse gs a t).2).logs = gs.logs := by
  unfold apply_reverse
  split <;> rfl

/-- C4: in a negotiation turn, if the opponent's response contains the accept
keyword (case-insensitive containment, `containsAccept`), the turn ends the
match at the communication step as the negotiated draw — no fire entry is
added this turn, the acting player's alive flag is untouched and the opponent
is returned unchanged; if the response lacks the keyword, the turn is not
ended by the negotiation and proceeds to the fire step: exactly one fire
outcome is appended this turn. -/
theorem negotiation_accept_ends_match (gs : GameState) (p o : Player)
    (inp : TurnInput) (msg : String) (hc : inp.comm = Comm.negotiate msg) :
    (containsAccept inp.negResponse = true →
      (process_player_turn gs p o inp).2.2.2 = TurnOutcome.negotiatedDraw ∧
      countFired (process_player_turn gs p o inp).1.logs = countFired gs.logs ∧
      (process_player_turn gs p o inp).2.1.alive = p.alive ∧
      (process_player_turn gs p o inp).2.2.1 = o) ∧
    (containsAccept inp.negResponse = false →
      (process_player_turn gs p o inp).2.2.2 ≠ TurnOutcome.negotiatedDraw ∧
      countFired (process_player_turn gs p o inp).1.logs = countFired gs.logs + 1) := by
  unfold process_player_turn
  rw [hc]
  dsimp only
  constructor
  · intro hacc
    simp only [hacc, reduceIte]
    refine ⟨trivial, ?_, ?_, trivial⟩
    · rw [add_comm_logs, add_comm_logs, countFired_append_single, countFired_append_single]
      simp only [isFired, Bool.false_eq_true, if_false, Nat.add_zero]
      cases hitem : inp.item
      · rfl
      · exact countFired_handle gs p _ inp.itemParam inp.rndAdd
    · cases hitem : inp.item
      · rfl
      · exact handle_item_alive gs p _ inp.itemParam inp.rndAdd
  · intro hacc
    simp only [hacc, Bool.false_eq_true, reduceIte, if_false]
    constructor
    · split
      · split <;> simp
      · simp
    · split
      · split <;>
          (rw [countFired_fire, apply_reverse_logs, add_comm_logs, add_comm_logs,
             countFired_append_single, countFired_append_single]
           simp only [isFired, Bool.false_eq_true, if_false, Nat.add_zero]
           cases hitem : inp.item
           · rfl
           · exact congrArg (· + 1) (countFired_handle gs p _ inp.itemParam inp.rndAdd))
      · rw [countFired_fire, apply_reverse_logs, add_comm_logs, add_comm_logs,
          countFired_append_single, countFired_append_single]
        simp only [isFired, Bool.false_eq_true, if_false, Nat.add_zero]
        cases hitem : inp.item
        · rfl
        · exact congrArg (· + 1) (countFired_handle gs p _ inp.itemParam inp.rndAdd)

/-- Witness for C4: with the accepting response "我同意" the turn ends as the
negotiated draw with no fire logged; with the declining response "拒绝" the
turn is not ended by the negotiation and one fire is logged. -/
theorem negotiation_accept_ends_match_witness :
    ((negTurn "我同意").comm = Comm.negotiate "停战吧" ∧
      containsAccept "我同意" = true ∧ containsAccept "拒绝" = false) ∧
    ((process_player_turn gun6 billP leeP (negTurn "我同意")).2.2.2 =
        TurnOutcome.negotiatedDraw ∧
      countFired (process_player_turn gun6 billP leeP (negTurn "我同意")).1.logs =
        countFired gun6.logs) ∧
    ((process_player_turn gun6 billP leeP (negTurn "拒绝")).2.2.2 ≠
        TurnOutcome.negotiatedDraw ∧
      countFired (process_player_turn gun6 billP leeP (negTurn "拒绝")).1.logs =
        countFired gun6.logs + 1) :=
  ⟨⟨rfl, by decide, by decide⟩,
   (fun h => ⟨h.1, h.2.1⟩)
     ((negotiation_accept_ends_match gun6 billP leeP (negTurn "我同意") "停战吧" rfl).1
       (by decide)),
   (negotiation_accept_ends_match gun6 billP leeP (negTurn "拒绝") "停战吧" rfl).2
     (by decide)⟩

/-- C8: every failed item activation is a no-op beyond a descriptive message.
An unnamed item or one absent from the acting player's inventory (which covers
unrecognized names, since inventories only ever hold the five item names)
returns state, player and inventory untouched with the invalid-item message
and no log entry; a malformed or missing Inspect parameter (Python raises
TypeError on `int(None)`, ValueError on a non-numeric string, both caught) and
an out-of-range Inspect position leave the player — hence the item — and
every gun field except the two usage log entries unchanged, with only the
descriptive message; the embedding is total, mirroring that no exception
escapes handle_item_usage; and a turn always reaches the fire step no matter
how the item activation went: exactly one fire entry is appended. -/
theorem failed_item_activation_noop (gs : GameState) (p o : Player)
    (param : IParam) (rnd : Nat) :
    (handle_item_usage gs p none param rnd = (gs, p, Msg.invalidItemOrNone)) ∧
    (∀ it : String, it ∉ p.items →
      handle_item_usage gs p (some it) param rnd = (gs, p, Msg.invalidItemOrNone)) ∧
    ("查看" ∈ p.items → param = IParam.absent ∨ param = IParam.malformed →
      handle_item_usage gs p (some "查看") param rnd =
        ({ gs with
            logs := gs.logs ++ [LogEntry.itemUsedFull p.name "查看" Msg.checkNeedsParam]
            player_logs := gs.player_logs ++ [LogEntry.itemUsedPlayer p.name "查看"] },
         p, Msg.checkNeedsParam)) ∧
    (∀ n : Int, "查看" ∈ p.items → (n - 1 < 0 ∨ n - 1 ≥ (gs.chamber_count : Int)) →
      handle_item_usage gs p (some "查看") (IParam.num n) rnd =
        ({ gs with
            logs := gs.logs ++ [LogEntry.itemUsedFull p.name "查看"
              (Msg.invalidPosition gs.chamber_count)]
            player_logs := gs.player_logs ++ [LogEntry.itemUsedPlayer p.name "查看"] },
         p, Msg.invalidPosition gs.chamber_count)) ∧
    (∀ inp : TurnInput, inp.comm = Comm.silence →
      countFired (process_player_turn gs p o inp).1.logs = countFired gs.logs + 1) := by
  refine ⟨rfl, ?_, ?_, ?_, ?_⟩
  · intro it h
    unfold handle_item_usage
    dsimp only
    rw [if_pos h]
  · intro hmem hp
    unfold handle_item_usage
    dsimp only
    rw [if_neg (not_not_intro hmem)]
    rcases hp with rfl | rfl <;> rfl
  · intro n hmem hrange
    unfold handle_item_usage
    dsimp only
    rw [if_neg (not_not_intro hmem), if_pos hrange]
    rfl
  · intro inp hs
    unfold process_player_turn
    rw [hs]
    dsimp only
    simp only [Bool.false_eq_true, reduceIte, if_false]
    split
    · split <;>
        (rw [countFired_fire, apply_reverse_logs, add_comm_logs, countFired_append_single]
         simp only [isFired, Bool.false_eq_true, if_false, Nat.add_zero]
         cases hitem : inp.item
         · rfl
         · exact congrArg (· + 1) (countFired_handle gs p _ inp.itemParam inp.rndAdd))
    · rw [countFired_fire, apply_reverse_logs, add_comm_logs, countFired_append_single]
      simp only [isFired, Bool.false_eq_true, if_false, Nat.add_zero]
      cases hitem : inp.item
      · rfl
      · exact congrArg (· + 1) (countFired_handle gs p _ inp.itemParam inp.rndAdd)

/-- Witness for C8: Bill (holding 子弹 and 查看 only) fails to use the absent
契约 item, fails Inspect at the out-of-range position 9 without consuming the
item, and a silent no-item turn still fires once. -/
theorem failed_item_activation_noop_witness :
    ("契约" ∉ billItems.items ∧
      handle_item_usage gun6 billItems (some "契约") IParam.absent 0 =
        (gun6, billItems, Msg.invalidItemOrNone)) ∧
    (((9 : Int) - 1 < 0 ∨ (9 : Int) - 1 ≥ (gun6.chamber_count : Int)) ∧
      (handle_item_usage gun6 billItems (some "查看") (IParam.num 9) 0).2.1 = billItems ∧
      (handle_item_usage gun6 billItems (some "查看") (IParam.num 9) 0).1.bullets =
        gun6.bullets ∧
      (handle_item_usage gun6 billItems (some "查看") (IParam.num 9) 0).2.2 =
        Msg.invalidPosition 6) ∧
    (silentTurn.comm = Comm.silence ∧
      countFired (process_player_turn gun6 billItems leeP silentTurn).1.logs =
        countFired gun6.logs + 1) :=
  ⟨⟨by decide,
    (failed_item_activation_noop gun6 billItems leeP IParam.absent 0).2.1 "契约" (by decide)⟩,
   ⟨by decide,
    by rw [(failed_item_activation_noop gun6 billItems leeP IParam.absent 0).2.2.2.1 9
        (by decide) (by decide)],
    by rw [(failed_item_activation_noop gun6 billItems leeP IParam.absent 0).2.2.2.1 9
        (by decide) (by decide)],
    by
      rw [(failed_item_activation_noop gun6 billItems leeP IParam.absent 0).2.2.2.1 9
        (by decide) (by decide)]
      rfl⟩,
   ⟨rfl,
    (failed_item_activation_noop gun6 billItems leeP IParam.absent 0).2.2.2.2
      silentTurn rfl⟩⟩

theorem process_alive_or (gs : GameState) (p o : Player) (inp : TurnInput) :
    (process_player_turn gs p o inp).2.2.2 ≠ TurnOutcome.continues ∨
    ((process_player_turn gs p o inp).2.1.alive = p.alive ∧
      (process_player_turn gs p o inp).2.2.1 = o) := by
  unfold process_player_turn
  cases hcm : inp.comm with
  | negotiate m =>
    dsimp only
    split
    · left
      simp
    · split
      · split <;> (left; simp)
      · right
        refine ⟨?_, rfl⟩
        cases hitem : inp.item
        · rfl
        · exact handle_item_alive gs p _ inp.itemParam inp.rndAdd
  | talk m =>
    dsimp only
    simp only [Bool.false_eq_true, reduceIte, if_false]
    split
    · split <;> (left; simp)
    · right
      refine ⟨?_, rfl⟩
      cases hitem : inp.item
      · rfl
      · exact handle_item_alive gs p _ inp.itemParam inp.rndAdd
  | silence =>
    dsimp only
    simp only [Bool.false_eq_true, reduceIte, if_false]
    split
    · split <;> (left; simp)
    · right
      refine ⟨?_, rfl⟩
      cases hitem : inp.item
      · rfl
      · exact handle_item_alive gs p _ inp.itemParam inp.rndAdd

theorem run_game_loop_turn_le (inputs : Nat → TurnInput) (fuel : Nat) :
    ∀ (tc : Nat) (b : Bool) (gs : GameState) (p1 p2 : Player),
      (run_game_loop inputs fuel tc b gs p1 p2).turn_count ≤ tc + fuel := by
  induction fuel with
  | zero =>
    intro tc b gs p1 p2
    simp [run_game_loop]
  | succ n ih =>
    intro tc b gs p1 p2
    unfold run_game_loop
    cases b
    · simp only [Bool.false_eq_true, reduceIte]
      split
      · try dsimp only
        omega
      · try dsimp only
        omega
      · exact le_trans (ih (tc + 1) true _ _ _) (by omega)
    · simp only [reduceIte]
      split
      · try dsimp only
        omega
      · try dsimp only
        omega
      · exact le_trans (ih (tc + 1) false _ _ _) (by omega)

theorem run_game_loop_charac (inputs : Nat → TurnInput) (fuel : Nat) :
    ∀ (tc : Nat) (b : Bool) (gs : GameState) (p1 p2 : Player),
      (run_game_loop inputs fuel tc b gs p1 p2).endKind ≠ EndKind.maxTurns ∨
      ((run_game_loop inputs fuel tc b gs p1 p2).turn_count = tc + fuel ∧
        (run_game_loop inputs fuel tc b gs p1 p2).p1.alive = p1.alive ∧
        (run_game_loop inputs fuel tc b gs p1 p2).p2.alive = p2.alive) := by
  induction fuel with
  | zero =>
    intro tc b gs p1 p2
    right
    exact ⟨rfl, rfl, rfl⟩
  | succ n ih =>
    intro tc b gs p1 p2
    unfold run_game_loop
    cases b
    · simp only [Bool.false_eq_true, reduceIte]
      split
      · left
        simp
      · left
        simp
      · rename_i hcont
        rcases process_alive_or gs p2 p1 (inputs tc) with hne | ⟨ha, ho⟩
        · exact absurd hcont hne
        · rcases ih (tc + 1) true _ _ _ with hne | ⟨h1, h2, h3⟩
          · left
            exact hne
          · right
            refine ⟨by omega, ?_, ?_⟩
            · rw [h2, ho]
            · rw [h3, ha]
    · simp only [reduceIte]
      split
      · left
        simp
      · left
        simp
      · rename_i hcont
        rcases process_alive_or gs p1 p2 (inputs tc) with hne | ⟨ha, ho⟩
        · exact absurd hcont hne
        · rcases ih (tc + 1) false _ _ _ with hne | ⟨h1, h2, h3⟩
          · left
            exact hne
          · right
            refine ⟨by omega, ?_, ?_⟩
            · rw [h2, ha]
            · rw [h3, ho]

/-- C9: the loop of run_game executes at most 30 turns whatever the agents
decide (the fuel-indexed embedding of the `turn_count < max_turns` guard is
structurally terminating, so termination is unconditional); and whenever the
loop ends by exhausting the bound — 30 turns with no hit and no accepted
negotiation — the turn count is exactly 30, both players are exactly as alive
as they started, and two initially-alive players make the final
classification the max-turns draw. -/
theorem game_loop_bounded_and_max_turns_draw :
    (∀ (inputs : Nat → TurnInput) (first : Bool) (gs : GameState) (p1 p2 : Player),
      (run_game inputs first gs p1 p2).1.turn_count ≤ 30) ∧
    (∀ (inputs : Nat → TurnInput) (first : Bool) (gs : GameState) (p1 p2 : Player),
      (run_game inputs first gs p1 p2).1.endKind = EndKind.maxTurns →
      p1.alive = true → p2.alive = true →
      (run_game inputs first gs p1 p2).1.turn_count = 30 ∧
      (run_game inputs first gs p1 p2).1.p1.alive = true ∧
      (run_game inputs first gs p1 p2).1.p2.alive = true ∧
      (run_game inputs first gs p1 p2).2 = MatchResult.drawMaxTurns) := by
  constructor
  · intro inputs first gs p1 p2
    exact run_game_loop_turn_le inputs 30 0 first gs p1 p2
  · intro inputs first gs p1 p2 hend h1 h2
    rcases run_game_loop_charac inputs 30 0 first gs p1 p2 with hne | ⟨ht, ha1, ha2⟩
    · exact absurd hend hne
    · have ga1 : (run_game inputs first gs p1 p2).1.p1.alive = true := by
        rw [show (run_game inputs first gs p1 p2).1 =
          run_game_loop inputs 30 0 first gs p1 p2 from rfl, ha1, h1]
      have ga2 : (run_game inputs first gs p1 p2).1.p2.alive = true := by
        rw [show (run_game inputs first gs p1 p2).1 =
          run_game_loop inputs 30 0 first gs p1 p2 from rfl, ha2, h2]
      refine ⟨ht, ga1, ga2, ?_⟩
      show classify (run_game_loop inputs 30 0 first gs p1 p2).p1
        (run_game_loop inputs 30 0 first gs p1 p2).p2 = MatchResult.drawMaxTurns
      unfold classify
      rw [ha1, h1, ha2, h2]
      simp

/-- Witness for C9: two silent players over an empty gun reach the 30-turn
bound alive, and the match is classified as the max-turns draw. -/
theorem game_loop_bounded_witness :
    (run_game (fun _ => silentTurn) true emptyGun billP leeP).1.endKind =
      EndKind.maxTurns ∧
    billP.alive = true ∧ leeP.alive = true ∧
    ((run_game (fun _ => silentTurn) true emptyGun billP leeP).1.turn_count = 30 ∧
      (run_game (fun _ => silentTurn) true emptyGun billP leeP).1.p1.alive = true ∧
      (run_game (fun _ => silentTurn) true emptyGun billP leeP).1.p2.alive = true ∧
      (run_game (fun _ => silentTurn) true emptyGun billP leeP).2 =
        MatchResult.drawMaxTurns) :=
  ⟨by decide, rfl, rfl,
   game_loop_bounded_and_max_turns_draw.2 (fun _ => silentTurn) true emptyGun billP leeP
     (by decide) rfl rfl⟩

end RR
